import Mathlib

/-!
Verification development for the Hacker News scraper robot
(`src/python/hn_scraper.py`).

The embedding models the scraper as pure functions over the data the
Selenium DOM lookups can yield:

* a compiled regular expression is modelled abstractly as a function
  `Pattern : String → Option String` returning the first matched
  substring (`pattern.search(text)`; `none` = no match);
* `re.compile` itself is modelled as `String → Option Pattern`
  (`none` = the pattern does not compile, i.e. `re.error` is raised);
* each DOM element lookup that can raise `NoSuchElementException`
  becomes an `Option` field of a raw record (`RawStory.titleLink`,
  `RawStory.meta`, `RawStory.commentLink`, `RawComment.comhead`);
* a page fetch is `Nat → Option (List RawStory)`: `none` models the
  `WebDriverWait(...).until(...)` at lines 68-73 failing (fetch error,
  timeout, or a page with no `Story` elements — all reach the same bare
  `except` and `break`), `some stories` a page whose stories were found;
* a thread fetch is `String → Option (List RawComment)` with the same
  reading for the wait at lines 141-145 of `scrape_hn_comments`;
* the `eywa` pipe calls that can raise are Boolean flags in `RunEnv`,
  and `mainRun` returns the reports actually handed to `eywa.report`,
  the final task status, the number of page fetches (`driver.get` calls
  in the page loop) and the list of thread URLs fetched.
-/

namespace HN

/-- Abstract compiled regular expression: `pattern.search(text)` returning
the matched substring of the first match, or `none` when there is no match. -/
def Pattern : Type := String → Option String

/-- The `<a>` element inside a `Story_title` element: its visible text
(`link_elem.text`, possibly empty) and its `href` attribute
(`get_attribute("href")`, `none` when absent). -/
structure TitleLink where
  text : String
  href : Option String
deriving DecidableEq, Repr

/-- Result of the three `re.search` calls on the `Story_meta` text
(lines 91-98): the captured points number, comments number and age label,
each `none` when the corresponding search finds nothing. -/
structure MetaInfo where
  pointsMatch : Option Nat
  commentsMatch : Option Nat
  timeMatch : Option String
deriving DecidableEq, Repr

/-- One `Story` element as the extraction code can observe it.
`titleLink = none` models `find_element` raising for the `Story_title`
element or its `<a>`; `meta = none` models the `Story_meta` lookup raising;
`commentLink` models the `PARTIAL_LINK_TEXT "comment"` lookup: `none` when
the element is absent (the lookup raises), `some h` when it is found with
`href` attribute `h` (`h = none` when the attribute is absent). -/
structure RawStory where
  titleLink : Option TitleLink
  meta : Option MetaInfo
  commentLink : Option (Option String)
deriving DecidableEq, Repr

/-- One entry appended to `matches` in `search_hn_posts` (lines 106-115). -/
structure EntryMatch where
  title : String
  url : Option String
  hn_url : Option String
  points : Nat
  comments : Nat
  time : String
  match_type : String
  matched_text : String
deriving DecidableEq, Repr

/-- The body of the `for story in stories` loop (lines 78-124): `none`
means the story was skipped — either some lookup raised (the
`except Exception: continue` at lines 123-124) or the title did not match.
Exactly as in the source, the metadata is read and defaulted before the
title test, and the discussion link is looked up only when the title
matched and `comments > 0`. -/
def processStory (pattern : Pattern) (story : RawStory) : Option EntryMatch :=
  match story.titleLink with
  | none => none
  | some link =>
    match story.meta with
    | none => none
    | some m =>
      let points := m.pointsMatch.getD 0
      let comments := m.commentsMatch.getD 0
      let time_ago := m.timeMatch.getD "unknown"
      match pattern link.text with
      | none => none
      | some matched =>
        if 0 < comments then
          match story.commentLink with
          | none => none
          | some hnLink =>
            some { title := link.text, url := link.href, hn_url := hnLink,
                   points := points, comments := comments, time := time_ago,
                   match_type := "title", matched_text := matched }
        else
          some { title := link.text, url := link.href, hn_url := none,
                 points := points, comments := comments, time := time_ago,
                 match_type := "title", matched_text := matched }

/-- The story loop of one page: appends each processed match to the
accumulator and breaks as soon as `len(matches) >= max_results`
(lines 117-121). -/
def processStories (pattern : Pattern) (maxResults : Nat) :
    List EntryMatch → List RawStory → List EntryMatch
  | acc, [] => acc
  | acc, s :: rest =>
    match processStory pattern s with
    | none => processStories pattern maxResults acc rest
    | some m =>
      let acc' := acc ++ [m]
      if maxResults ≤ acc'.length then acc'
      else processStories pattern maxResults acc' rest

/-- Outcome of `search_hn_posts`: the accumulated matches and the number of
page fetches (`driver.get` calls) issued by the pagination loop. -/
structure SearchResult where
  matchList : List EntryMatch
  pagesFetched : Nat
deriving DecidableEq, Repr

/-- The `while len(matches) < max_results and page <= 5` pagination loop
(lines 60-127), presented as recursion over the list of page numbers the
`page <= 5` guard still allows.  A failed wait (`fetch p = none`) logs a
warning and breaks; otherwise the page's stories are processed and the
loop moves to the next page. -/
def searchPages (fetch : Nat → Option (List RawStory)) (pattern : Pattern)
    (maxResults : Nat) : List Nat → List EntryMatch → Nat → SearchResult
  | [], acc, fetched => ⟨acc, fetched⟩
  | p :: rest, acc, fetched =>
    if acc.length < maxResults then
      match fetch p with
      | none => ⟨acc, fetched + 1⟩
      | some stories =>
        searchPages fetch pattern maxResults rest
          (processStories pattern maxResults acc stories) (fetched + 1)
    else ⟨acc, fetched⟩

/-- The page numbers the `page <= 5` ceiling allows, in fetch order. -/
def pageList : List Nat := [1, 2, 3, 4, 5]

/-- `search_hn_posts` after the regex has been compiled: run the pagination
loop from page 1 with an empty accumulator. -/
def search_hn_posts (fetch : Nat → Option (List RawStory)) (pattern : Pattern)
    (max_results : Nat) : SearchResult :=
  searchPages fetch pattern max_results pageList [] 0

/-- Every match the pages offer, in page-traversal order, ignoring the
result budget: the concatenation over fetched pages of each page's
processed stories, stopping at the first failed fetch exactly as the
loop does. -/
def availableMatches (fetch : Nat → Option (List RawStory))
    (pattern : Pattern) : List Nat → List EntryMatch
  | [] => []
  | p :: rest =>
    match fetch p with
    | none => []
    | some stories =>
      stories.filterMap (processStory pattern) ++
        availableMatches fetch pattern rest

/-- One `comment` element of a thread page: its text (`comment.text`, never
raises) and the `comhead` metadata lookup — `none` when `find_element`
raises (the comment is skipped), `some u` when found, with `u` the
`hnuser` text when such an element exists and `none` otherwise
(the `if meta.find_elements(...) else "unknown"` at lines 156-157). -/
structure RawComment where
  text : String
  comhead : Option (Option String)
deriving DecidableEq, Repr

/-- One record appended to `comment_matches` (lines 159-165). -/
structure CommentMatch where
  story_title : String
  story_url : String
  comment_text : String
  user : String
  matched_text : String
deriving DecidableEq, Repr

/-- Python slicing `t[:n]` on a string: the first `n` code points. -/
def pyTake (t : String) (n : Nat) : String := ⟨t.data.take n⟩

/-- `text[:200] + "..." if len(text) > 200 else text` (line 162). -/
def truncateComment (text : String) : String :=
  if 200 < text.length then pyTake text 200 ++ "..." else text

/-- The body of the `for comment in comments[:50]` loop (lines 150-168):
`none` when the comment is skipped (no match, or the `comhead` lookup
raised and the bare `except: continue` fired). -/
def processComment (pattern : Pattern) (story_title story_url : String)
    (c : RawComment) : Option CommentMatch :=
  match pattern c.text with
  | none => none
  | some matched =>
    match c.comhead with
    | none => none
    | some userOpt =>
      some { story_title := story_title, story_url := story_url,
             comment_text := truncateComment c.text,
             user := userOpt.getD "unknown",
             matched_text := matched }

/-- `scrape_hn_comments` (lines 132-170): a failed wait for the thread's
comments returns the empty list; otherwise the first 50 comments are
scanned in document order. -/
def scrape_hn_comments (fetchThread : String → Option (List RawComment))
    (pattern : Pattern) (story_url story_title : String) : List CommentMatch :=
  match fetchThread story_url with
  | none => []
  | some comments =>
    (comments.take 50).filterMap (processComment pattern story_title story_url)

/-- The report dict built at lines 219-227: `total_matches` is written as
`len(post_matches) + len(comment_matches)`, structurally from the two
lists. -/
structure Report where
  search_term : String
  regex_pattern : String
  post_matches : List EntryMatch
  comment_matches : List CommentMatch
  total_matches : Nat
  scraped_at : String
  mode : String
deriving DecidableEq, Repr

/-- Assemble the report exactly as lines 219-227 do. -/
def mkReport (search_term regex_pattern : String)
    (post_matches : List EntryMatch) (comment_matches : List CommentMatch)
    (scraped_at : String) (headless : Bool) : Report :=
  { search_term := search_term
    regex_pattern := regex_pattern
    post_matches := post_matches
    comment_matches := comment_matches
    total_matches := post_matches.length + comment_matches.length
    scraped_at := scraped_at
    mode := if headless then "headless" else "visible" }

/-- Task status handed to `eywa.close_task`. -/
inductive TaskStatus where
  | SUCCESS
  | ERROR
deriving DecidableEq, Repr

/-- Run configuration read from the task input (lines 184-189). -/
structure RunConfig where
  search_term : String
  regex_pattern : String
  max_results : Nat
  check_comments : Bool
  headless : Bool
deriving DecidableEq, Repr

/-- The outside world as `main` can observe it: whether each `eywa` pipe
call and the driver setup succeed (`false` = the call raises), the regex
compiler, and the page/thread fetch behaviour. -/
structure RunEnv where
  getTaskOk : Bool
  updateTaskOk : Bool
  setupOk : Bool
  compile : String → Option Pattern
  fetch : Nat → Option (List RawStory)
  fetchThread : String → Option (List RawComment)
  reportOk : Bool

/-- Observable outcome of one `main` run: the reports handed (whole) to
`eywa.report`, the status given to `eywa.close_task`, the number of page
fetches issued by the pagination loop, and the thread URLs passed to
`scrape_hn_comments` (each issues exactly one thread fetch). -/
structure RunOutcome where
  emitted : List Report
  status : TaskStatus
  pagesFetched : Nat
  threadFetches : List String
deriving Repr

/-- Python truthiness of `match['hn_url']`: `None` and `""` are falsy. -/
def hnTruthy : Option String → Bool
  | none => false
  | some u => !(u == "")

/-- The guard `if match['hn_url'] and match['comments'] > 0` (line 209). -/
def eligible (m : EntryMatch) : Bool :=
  hnTruthy m.hn_url && decide (0 < m.comments)

/-- The `for match in post_matches[:5]` comment loop of `main`
(lines 208-216), collecting the comment matches it extends. -/
def collectComments (fetchThread : String → Option (List RawComment))
    (pattern : Pattern) (post : List EntryMatch) : List CommentMatch :=
  (post.take 5).foldl
    (fun acc m =>
      if eligible m then
        acc ++ scrape_hn_comments fetchThread pattern (m.hn_url.getD "") m.title
      else acc) []

/-- The thread URLs for which the comment loop of `main` actually calls
`scrape_hn_comments` (and hence issues a thread fetch), in order. -/
def threadFetchLog (post : List EntryMatch) : List String :=
  (post.take 5).foldl
    (fun acc m => if eligible m then acc ++ [m.hn_url.getD ""] else acc) []

/-- `main` (lines 173-261): the `try` body in order — `get_task`,
`update_task`, `setup_driver`, the regex compile at the top of
`search_hn_posts`, the page loop, the optional comment loop, the report
assembly and `eywa.report` — with any raise landing in the
`except Exception` handler (lines 255-257), which only logs and closes
the task with `ERROR`; it emits no report. -/
def mainRun (env : RunEnv) (cfg : RunConfig) (now : String) : RunOutcome :=
  if env.getTaskOk = false then ⟨[], .ERROR, 0, []⟩
  else if env.updateTaskOk = false then ⟨[], .ERROR, 0, []⟩
  else if env.setupOk = false then ⟨[], .ERROR, 0, []⟩
  else
    match env.compile cfg.regex_pattern with
    | none => ⟨[], .ERROR, 0, []⟩
    | some pattern =>
      let sr := search_hn_posts env.fetch pattern cfg.max_results
      let post := sr.matchList
      let doComments := cfg.check_comments && !post.isEmpty
      let cms := if doComments then collectComments env.fetchThread pattern post
                 else []
      let tlog := if doComments then threadFetchLog post else []
      let report := mkReport cfg.search_term cfg.regex_pattern post cms now
                      cfg.headless
      if env.reportOk = false then ⟨[], .ERROR, sr.pagesFetched, tlog⟩
      else ⟨[report], .SUCCESS, sr.pagesFetched, tlog⟩

/-! Concrete fixtures used to evaluate the theorems on explicit inputs. -/

/-- The compiled empty pattern `re.compile(r'')`: it matches every text,
with matched substring `""`. -/
def patAll : Pattern := fun _ => some ""

/-- A compiled literal pattern matching exactly the title "EYWA launch"
(as `re.compile("EYWA")` would on that title). -/
def patEywa : Pattern := fun t => if t = "EYWA launch" then some "EYWA" else none

/-- A story whose title link has text `t`, with no points/comments/age
metadata parsed (they default to 0 / 0 / "unknown"). -/
def storyTitled (t : String) : RawStory :=
  { titleLink := some { text := t, href := some "https://example.com/a" }
    meta := some { pointsMatch := none, commentsMatch := none, timeMatch := none }
    commentLink := some none }

/-- The entry match `processStory patAll (storyTitled "t1")` produces. -/
def entryT1 : EntryMatch :=
  { title := "t1", url := some "https://example.com/a", hn_url := none,
    points := 0, comments := 0, time := "unknown", match_type := "title",
    matched_text := "" }

/-- A story whose title-link `<a>` has empty text and no `href` attribute. -/
def emptyTitleStory : RawStory :=
  { titleLink := some { text := "", href := none }
    meta := some { pointsMatch := none, commentsMatch := none, timeMatch := none }
    commentLink := some none }

/-- The entry match `processStory patAll emptyTitleStory` produces. -/
def entryEmpty : EntryMatch :=
  { title := "", url := none, hn_url := none,
    points := 0, comments := 0, time := "unknown", match_type := "title",
    matched_text := "" }

/-- A story whose title matches `patEywa` and which shows 3 comments, but
whose "comment" discussion link element is absent, so the lookup at
line 103 raises. -/
def sSkipped : RawStory :=
  { titleLink := some { text := "EYWA launch", href := some "https://example.com/e" }
    meta := some { pointsMatch := some 5, commentsMatch := some 3,
                   timeMatch := some "2 hours ago" }
    commentLink := none }

/-- A source whose first page holds four stories with matching titles and
whose later pages fail the wait. -/
def fetchFourOnPageOne : Nat → Option (List RawStory) :=
  fun p => if p = 1 then
    some [storyTitled "t1", storyTitled "t2", storyTitled "t3", storyTitled "t4"]
  else none

/-- A source whose first page holds one matching story and whose later
pages fail the wait. -/
def fetchOneStory : Nat → Option (List RawStory) :=
  fun p => if p = 1 then some [storyTitled "t1"] else none

/-- A source whose first page holds only `emptyTitleStory`. -/
def fetchEmptyTitle : Nat → Option (List RawStory) :=
  fun p => if p = 1 then some [emptyTitleStory] else none

/-- Default-like run configuration (lines 184-189). -/
def cfgDefault : RunConfig :=
  { search_term := "EYWA", regex_pattern := "EYWA|eywa", max_results := 10,
    check_comments := false, headless := false }

/-- An environment where every external call succeeds. -/
def envOk : RunEnv :=
  { getTaskOk := true, updateTaskOk := true, setupOk := true,
    compile := fun _ => some patAll, fetch := fetchOneStory,
    fetchThread := fun _ => none, reportOk := true }

/-- Like `envOk` but `eywa.report` raises (an unexpected failure after the
report has been assembled). -/
def envReportRaises : RunEnv := { envOk with reportOk := false }

/-- Like `envOk` but the configured regex does not compile. -/
def envBadPattern : RunEnv := { envOk with compile := fun _ => none }

/-- A 201-character comment text used to exercise truncation. -/
def longText : String := ⟨List.replicate 201 'x'⟩

/-! Helper lemmas. -/

theorem take_append_take {α : Type} (l l₂ : List α) (n : Nat) :
    (l.take n ++ l₂).take n = (l ++ l₂).take n := by
  rw [List.take_append_eq_append_take, List.take_append_eq_append_take,
    List.take_take, Nat.min_self, List.length_take]
  congr 2
  omega

theorem processStories_eq (pattern : Pattern) (maxResults : Nat)
    (acc : List EntryMatch) (ss : List RawStory)
    (h : acc.length < maxResults) :
    processStories pattern maxResults acc ss =
      (acc ++ ss.filterMap (processStory pattern)).take maxResults := by
  induction ss generalizing acc with
  | nil =>
    simp only [processStories, List.filterMap_nil, List.append_nil]
    exact (List.take_of_length_le (Nat.le_of_lt h)).symm
  | cons s rest ih =>
    cases hps : processStory pattern s with
    | none =>
      rw [List.filterMap_cons_none hps]
      simpa only [processStories, hps] using ih acc h
    | some m =>
      rw [List.filterMap_cons_some hps]
      simp only [processStories, hps]
      by_cases hlen : maxResults ≤ (acc ++ [m]).length
      · rw [if_pos hlen]
        have h1 : maxResults = acc.length + 1 := by
          simp only [List.length_append, List.length_cons,
            List.length_nil] at hlen
          omega
        rw [List.append_cons acc m (List.filterMap (processStory pattern) rest),
          List.take_append_of_le_length (by simp [h1]),
          List.take_of_length_le (by simp [h1])]
      · rw [if_neg hlen]
        have h2 : (acc ++ [m]).length < maxResults := Nat.lt_of_not_le hlen
        rw [ih (acc ++ [m]) h2]
        congr 1
        simp

theorem searchPages_of_not_lt (fetch : Nat → Option (List RawStory))
    (pattern : Pattern) (maxResults : Nat) (pages : List Nat)
    (acc : List EntryMatch) (fetched : Nat)
    (h : ¬ acc.length < maxResults) :
    searchPages fetch pattern maxResults pages acc fetched = ⟨acc, fetched⟩ := by
  cases pages with
  | nil => rfl
  | cons p rest => simp only [searchPages, if_neg h]

theorem searchPages_cons_some (fetch : Nat → Option (List RawStory))
    (pattern : Pattern) (maxResults : Nat) (p : Nat) (rest : List Nat)
    (acc : List EntryMatch) (fetched : Nat) (ss : List RawStory)
    (h : acc.length < maxResults) (hf : fetch p = some ss) :
    searchPages fetch pattern maxResults (p :: rest) acc fetched =
      searchPages fetch pattern maxResults rest
        (processStories pattern maxResults acc ss) (fetched + 1) := by
  simp only [searchPages, if_pos h, hf]

theorem searchPages_matchList (fetch : Nat → Option (List RawStory))
    (pattern : Pattern) (maxResults : Nat) (pages : List Nat)
    (acc : List EntryMatch) (fetched : Nat) (h : acc.length ≤ maxResults) :
    (searchPages fetch pattern maxResults pages acc fetched).matchList =
      (acc ++ availableMatches fetch pattern pages).take maxResults := by
  induction pages generalizing acc fetched with
  | nil =>
    simp only [searchPages, availableMatches, List.append_nil]
    exact (List.take_of_length_le h).symm
  | cons p rest ih =>
    by_cases hlt : acc.length < maxResults
    · cases hf : fetch p with
      | none =>
        simp only [searchPages, if_pos hlt, hf, availableMatches,
          List.append_nil]
        exact (List.take_of_length_le h).symm
      | some stories =>
        rw [searchPages_cons_some fetch pattern maxResults p rest acc fetched
          stories hlt hf]
        rw [processStories_eq pattern maxResults acc stories hlt]
        rw [ih _ _ (by simp)]
        simp only [availableMatches, hf]
        rw [take_append_take, List.append_assoc]
    · rw [searchPages_of_not_lt fetch pattern maxResults _ acc fetched hlt]
      have hge : maxResults ≤ acc.length := Nat.le_of_not_lt hlt
      rw [List.take_append_of_le_length hge, List.take_of_length_le h]

theorem searchPages_pagesFetched (fetch : Nat → Option (List RawStory))
    (pattern : Pattern) (maxResults : Nat) (pages : List Nat)
    (acc : List EntryMatch) (fetched : Nat) :
    (searchPages fetch pattern maxResults pages acc fetched).pagesFetched ≤
      fetched + pages.length := by
  induction pages generalizing acc fetched with
  | nil => simp [searchPages]
  | cons p rest ih =>
    by_cases hlt : acc.length < maxResults
    · cases hf : fetch p with
      | none =>
        simp only [searchPages, if_pos hlt, hf, List.length_cons]
        omega
      | some stories =>
        rw [searchPages_cons_some fetch pattern maxResults p rest acc fetched
          stories hlt hf]
        have := ih (processStories pattern maxResults acc stories) (fetched + 1)
        simp only [List.length_cons]
        omega
    · rw [searchPages_of_not_lt fetch pattern maxResults _ acc fetched hlt]
      simp

theorem mem_availableMatches {fetch : Nat → Option (List RawStory)}
    {pattern : Pattern} {pages : List Nat} {m : EntryMatch}
    (hm : m ∈ availableMatches fetch pattern pages) :
    ∃ s : RawStory, processStory pattern s = some m := by
  induction pages with
  | nil => simp [availableMatches] at hm
  | cons p rest ih =>
    rw [availableMatches] at hm
    revert hm
    cases hf : fetch p with
    | none => intro hm; simp at hm
    | some stories =>
      intro hm
      rcases List.mem_append.mp hm with hmem | hmem
      · obtain ⟨s, _, hs⟩ := List.mem_filterMap.mp hmem
        exact ⟨s, hs⟩
      · exact ih hmem

theorem processStory_comments_zero {pattern : Pattern} {s : RawStory}
    {m : EntryMatch} (h : processStory pattern s = some m)
    (h0 : m.comments = 0) : m.hn_url = none := by
  cases h1 : s.titleLink with
  | none => simp [processStory, h1] at h
  | some link =>
    cases h2 : s.meta with
    | none => simp [processStory, h1, h2] at h
    | some mi =>
      cases h3 : pattern link.text with
      | none => simp [processStory, h1, h2, h3] at h
      | some matched =>
        by_cases h4 : 0 < mi.commentsMatch.getD 0
        · cases h5 : s.commentLink with
          | none => simp [processStory, h1, h2, h3, h4, h5] at h
          | some hl =>
            simp only [processStory, h1, h2, h3, h5, if_pos h4,
              Option.some.injEq] at h
            rw [← h] at h0
            simp only at h0
            omega
        · simp only [processStory, h1, h2, h3, if_neg h4,
            Option.some.injEq] at h
          rw [← h]

/-! Claim theorems. -/

/-- C1: for every run that produces a Report, the report's total match
count equals the length of its entry-match list plus the length of its
comment-match list — it is written structurally from the two lists by
`mkReport` and never computed independently. -/
theorem C1_total_match_count (env : RunEnv) (cfg : RunConfig) (now : String)
    (r : Report) (hr : r ∈ (mainRun env cfg now).emitted) :
    r.total_matches = r.post_matches.length + r.comment_matches.length := by
  simp only [mainRun] at hr
  split at hr
  · simp at hr
  · split at hr
    · simp at hr
    · split at hr
      · simp at hr
      · split at hr
        · simp at hr
        · split at hr
          · simp at hr
          · simp only [List.mem_singleton] at hr
            subst hr
            rfl

theorem C1_total_match_count_witness :
    (mkReport "EYWA" "EYWA|eywa" [entryT1] [] "t" false).total_matches =
      (mkReport "EYWA" "EYWA|eywa" [entryT1] [] "t" false).post_matches.length +
      (mkReport "EYWA" "EYWA|eywa" [entryT1] [] "t" false).comment_matches.length :=
  C1_total_match_count envOk cfgDefault "t" _ (by decide)

/-- C2: the accumulated entry matches never exceed `max_results`, the
loop fetches at most the 5 pages of the page ceiling, the result is
exactly the first `max_results` matches in page-traversal order, and when
the first page already offers `max_results` matches the loop stops after
that single page fetch. -/
theorem C2_budget_and_page_ceiling (fetch : Nat → Option (List RawStory))
    (pattern : Pattern) (maxResults : Nat) :
    (search_hn_posts fetch pattern maxResults).matchList.length ≤ maxResults ∧
    (search_hn_posts fetch pattern maxResults).pagesFetched ≤ 5 ∧
    (search_hn_posts fetch pattern maxResults).matchList =
      (availableMatches fetch pattern pageList).take maxResults ∧
    (∀ ss : List RawStory, 0 < maxResults → fetch 1 = some ss →
      maxResults ≤ (ss.filterMap (processStory pattern)).length →
      (search_hn_posts fetch pattern maxResults).pagesFetched = 1 ∧
      (search_hn_posts fetch pattern maxResults).matchList =
        (ss.filterMap (processStory pattern)).take maxResults) := by
  have hchar : (search_hn_posts fetch pattern maxResults).matchList =
      (availableMatches fetch pattern pageList).take maxResults := by
    have h := searchPages_matchList fetch pattern maxResults pageList [] 0
      (Nat.zero_le _)
    simpa [search_hn_posts] using h
  refine ⟨?_, ?_, hchar, ?_⟩
  · rw [hchar]
    simp only [List.length_take]
    omega
  · have h := searchPages_pagesFetched fetch pattern maxResults pageList [] 0
    simpa [search_hn_posts, pageList] using h
  · intro ss hpos hf hlen
    have h0 : ([] : List EntryMatch).length < maxResults := by simpa using hpos
    have hps : processStories pattern maxResults [] ss =
        (ss.filterMap (processStory pattern)).take maxResults := by
      simpa using processStories_eq pattern maxResults [] ss h0
    have hstep : search_hn_posts fetch pattern maxResults =
        searchPages fetch pattern maxResults [2, 3, 4, 5]
          (processStories pattern maxResults [] ss) 1 := by
      unfold search_hn_posts pageList
      exact searchPages_cons_some fetch pattern maxResults 1 [2, 3, 4, 5]
        [] 0 ss h0 hf
    have hfull : ¬ (processStories pattern maxResults [] ss).length <
        maxResults := by
      rw [hps]
      simp only [List.length_take]
      omega
    rw [hstep, searchPages_of_not_lt _ _ _ _ _ _ hfull]
    exact ⟨rfl, hps⟩

theorem C2_budget_and_page_ceiling_witness :
    (search_hn_posts fetchFourOnPageOne patAll 2).pagesFetched = 1 ∧
    (search_hn_posts fetchFourOnPageOne patAll 2).matchList =
      ([storyTitled "t1", storyTitled "t2", storyTitled "t3",
        storyTitled "t4"].filterMap (processStory patAll)).take 2 :=
  (C2_budget_and_page_ceiling fetchFourOnPageOne patAll 2).2.2.2
    [storyTitled "t1", storyTitled "t2", storyTitled "t3", storyTitled "t4"]
    (by decide) rfl (by decide)

/-- C3: a page whose fetch/wait fails (timeout, rendering error — the same
observation as a page with no entries) makes the pagination loop stop
without retrying and return exactly the matches accumulated so far; the
loop always yields a `SearchResult`, so no exception aborts the run. -/
theorem C3_fetch_failure_stops (fetch : Nat → Option (List RawStory))
    (pattern : Pattern) (maxResults : Nat) (p : Nat) (rest : List Nat)
    (acc : List EntryMatch) (fetched : Nat)
    (hacc : acc.length < maxResults) (hf : fetch p = none) :
    searchPages fetch pattern maxResults (p :: rest) acc fetched =
      ⟨acc, fetched + 1⟩ := by
  simp only [searchPages, if_pos hacc, hf]

theorem C3_fetch_failure_stops_witness :
    searchPages (fun _ => none) patAll 10 pageList [] 0 = ⟨[], 1⟩ :=
  C3_fetch_failure_stops (fun _ => none) patAll 10 1 [2, 3, 4, 5] [] 0
    (by decide) rfl

/-- C4 counterexample: in a run where the search succeeded (a non-empty
match list was assembled) and the subsequent `eywa.report` call raises,
the `except` handler at lines 255-257 closes the task with `ERROR` but
emits no report at all — contradicting the claim that the run "reports
the partial Report assembled so far". -/
theorem C4_counterexample :
    (mainRun envReportRaises cfgDefault "t").status = TaskStatus.ERROR ∧
    (mainRun envReportRaises cfgDefault "t").emitted = [] ∧
    (search_hn_posts envReportRaises.fetch patAll 10).matchList =
      [entryT1] := by
  refine ⟨by decide, by decide, by decide⟩

/-- C4 amended: if any unexpected failure occurs during the run, the run
terminates and signals failure status, but no Report is emitted on the
failure path; a Report is only ever emitted whole, on the success path. -/
theorem C4_error_emits_nothing (env : RunEnv) (cfg : RunConfig)
    (now : String) :
    ((mainRun env cfg now).status = TaskStatus.ERROR →
      (mainRun env cfg now).emitted = []) ∧
    (∀ r ∈ (mainRun env cfg now).emitted,
      (mainRun env cfg now).status = TaskStatus.SUCCESS ∧
      r.total_matches = r.post_matches.length + r.comment_matches.length) := by
  simp only [mainRun]
  split
  · simp
  · split
    · simp
    · split
      · simp
      · split
        · simp
        · split
          · simp
          · refine ⟨fun hst => ?_, ?_⟩
            · simp at hst
            · intro r hr
              simp only [List.mem_singleton] at hr
              subst hr
              exact ⟨rfl, rfl⟩

theorem C4_error_emits_nothing_witness :
    (mainRun envReportRaises cfgDefault "t").emitted = [] ∧
    ((mainRun envOk cfgDefault "t").status = TaskStatus.SUCCESS ∧
      (mkReport "EYWA" "EYWA|eywa" [entryT1] [] "t" false).total_matches =
        (mkReport "EYWA" "EYWA|eywa" [entryT1] [] "t" false).post_matches.length +
        (mkReport "EYWA" "EYWA|eywa" [entryT1] [] "t" false).comment_matches.length) :=
  ⟨(C4_error_emits_nothing envReportRaises cfgDefault "t").1 (by decide),
   (C4_error_emits_nothing envOk cfgDefault "t").2 _ (by decide)⟩

/-- C5: when the configured regex pattern does not compile, the run fails
immediately with failure status before any page or thread fetch is issued
(both fetch counters stay at zero), emitting nothing and making no
retry. -/
theorem C5_invalid_pattern_fails_before_fetch (env : RunEnv)
    (cfg : RunConfig) (now : String) (h1 : env.getTaskOk = true)
    (h2 : env.updateTaskOk = true) (h3 : env.setupOk = true)
    (hc : env.compile cfg.regex_pattern = none) :
    mainRun env cfg now = ⟨[], TaskStatus.ERROR, 0, []⟩ := by
  simp [mainRun, h1, h2, h3, hc]

theorem C5_invalid_pattern_fails_before_fetch_witness :
    mainRun envBadPattern cfgDefault "t" = ⟨[], TaskStatus.ERROR, 0, []⟩ :=
  C5_invalid_pattern_fails_before_fetch envBadPattern cfgDefault "t"
    rfl rfl rfl rfl

theorem foldl_eligible_append {β : Type} (g : EntryMatch → List β)
    (l : List EntryMatch) (acc : List β) :
    l.foldl (fun a m => if eligible m then a ++ g m else a) acc =
      acc ++ ((l.filter eligible).map g).flatten := by
  induction l generalizing acc with
  | nil => simp
  | cons m rest ih =>
    simp only [List.foldl_cons, List.filter_cons]
    by_cases he : eligible m
    · rw [if_pos he, ih, he]
      simp
    · rw [if_neg he, ih]
      simp only [Bool.not_eq_true] at he
      rw [he]
      simp

theorem flatten_map_singleton {α β : Type} (f : α → β) (l : List α) :
    (l.map (fun a => [f a])).flatten = l.map f := by
  induction l with
  | nil => rfl
  | cons a rest ih => simp [ih]

/-- C6: a thread fetch is issued only for entries that are among the first
5 entry matches, have a truthy (non-`None`, non-empty) `hn_url` and
`comments > 0` — the fetch log is exactly the urls of the eligible prefix
entries, an ineligible entry contributes no fetch; the comment matches
are the concatenation, in entry order, of `scrape_hn_comments` over the
eligible entries, and a thread whose fetch (wait) fails contributes the
empty list while the others are still traversed. -/
theorem C6_thread_fetch_policy (fetchThread : String → Option (List RawComment))
    (pattern : Pattern) (post : List EntryMatch) :
    threadFetchLog post =
      ((post.take 5).filter eligible).map (fun m => m.hn_url.getD "") ∧
    collectComments fetchThread pattern post =
      (((post.take 5).filter eligible).map (fun m =>
        scrape_hn_comments fetchThread pattern (m.hn_url.getD "") m.title)).flatten ∧
    (∀ u t, fetchThread u = none →
      scrape_hn_comments fetchThread pattern u t = []) := by
  refine ⟨?_, ?_, ?_⟩
  · rw [threadFetchLog, foldl_eligible_append (fun m => [m.hn_url.getD ""]),
      flatten_map_singleton]
    simp
  · rw [collectComments, foldl_eligible_append]
    simp
  · intro u t hu
    simp [scrape_hn_comments, hu]

theorem C6_thread_fetch_policy_witness :
    scrape_hn_comments (fun _ => none) patAll "https://example.com/e" "t1" =
      [] :=
  (C6_thread_fetch_policy (fun _ => none) patAll [entryT1]).2.2
    "https://example.com/e" "t1" rfl

/-- C7: a comment text longer than 200 code points is truncated to exactly
its first 200 code points followed by the `"..."` marker — the cut is on a
code-point boundary, as the data equation shows — and a text of at most
200 code points is stored unmodified. -/
theorem C7_comment_truncation (t : String) :
    (200 < t.length →
      truncateComment t = pyTake t 200 ++ "..." ∧
      (truncateComment t).data = t.data.take 200 ++ "...".data ∧
      (pyTake t 200).length = 200) ∧
    (t.length ≤ 200 → truncateComment t = t) := by
  obtain ⟨l⟩ := t
  constructor
  · intro h
    refine ⟨if_pos h, ?_, ?_⟩
    · rw [truncateComment, if_pos h, String.data_append]
      rfl
    · simp only [pyTake, String.length_mk, List.length_take]
      simp only [String.length_mk] at h
      omega
  · intro h
    rw [truncateComment, if_neg (by omega)]

theorem C7_comment_truncation_witness :
    (200 < longText.length ∧
      truncateComment longText = pyTake longText 200 ++ "..." ∧
      (pyTake longText 200).length = 200) ∧
    (("ab" : String).length ≤ 200 ∧ truncateComment "ab" = "ab") :=
  ⟨⟨by unfold longText; rw [String.length_mk, List.length_replicate]; omega, ((C7_comment_truncation longText).1 (by unfold longText; rw [String.length_mk, List.length_replicate]; omega)).1,
    ((C7_comment_truncation longText).1 (by unfold longText; rw [String.length_mk, List.length_replicate]; omega)).2.2⟩,
   ⟨by decide, (C7_comment_truncation "ab").2 (by decide)⟩⟩

/-- C8 counterexample: the extraction code never checks that the title
text is non-empty or that the href attribute is present.  A page whose
only story has a title link with empty text and no `href`, searched with
the (valid) pattern that matches every text, yields an entry match whose
title is `""` and whose url is absent — refuting the invariant that every
extracted entry has a non-empty title and a present canonical url. -/
theorem C8_counterexample :
    (search_hn_posts fetchEmptyTitle patAll 10).matchList.map
      EntryMatch.title = [""] ∧
    (search_hn_posts fetchEmptyTitle patAll 10).matchList.map
      EntryMatch.url = [none] := by
  refine ⟨by decide, by decide⟩

/-- C8 amended: every entry match takes its title and url verbatim from
the successfully located title-link element of its story (an entry whose
title-link lookup raises is skipped); no non-emptiness check is made on
the title text and no presence check on the href, so an empty title or an
absent url can reach the result list. -/
theorem C8_title_url_from_link (pattern : Pattern) (s : RawStory)
    (m : EntryMatch) (h : processStory pattern s = some m) :
    ∃ link : TitleLink, s.titleLink = some link ∧ m.title = link.text ∧
      m.url = link.href := by
  cases h1 : s.titleLink with
  | none => simp [processStory, h1] at h
  | some link =>
    refine ⟨link, rfl, ?_⟩
    cases h2 : s.meta with
    | none => simp [processStory, h1, h2] at h
    | some mi =>
      cases h3 : pattern link.text with
      | none => simp [processStory, h1, h2, h3] at h
      | some matched =>
        by_cases h4 : 0 < mi.commentsMatch.getD 0
        · cases h5 : s.commentLink with
          | none => simp [processStory, h1, h2, h3, h4, h5] at h
          | some hl =>
            simp only [processStory, h1, h2, h3, h5, if_pos h4,
              Option.some.injEq] at h
            subst h
            exact ⟨rfl, rfl⟩
        · simp only [processStory, h1, h2, h3, if_neg h4,
            Option.some.injEq] at h
          subst h
          exact ⟨rfl, rfl⟩

theorem C8_title_url_from_link_witness :
    ∃ link : TitleLink, emptyTitleStory.titleLink = some link ∧
      entryEmpty.title = link.text ∧ entryEmpty.url = link.href :=
  C8_title_url_from_link patAll emptyTitleStory entryEmpty (by decide)

/-- C9: an entry whose title matches the pattern can still be absent from
the entry-match list — when the entry shows `comments > 0` but the
discussion-link lookup at line 103 raises, the bare `except` skips the
entry entirely, so a title match does not guarantee inclusion. -/
theorem C9_title_match_can_be_skipped (pattern : Pattern) (s : RawStory)
    (link : TitleLink) (mi : MetaInfo) (c : Nat) (mt : String)
    (h1 : s.titleLink = some link) (h2 : s.meta = some mi)
    (h3 : pattern link.text = some mt) (h4 : mi.commentsMatch = some c)
    (h5 : 0 < c) (h6 : s.commentLink = none) :
    processStory pattern s = none ∧
    (∀ maxResults acc rest,
      processStories pattern maxResults acc (s :: rest) =
        processStories pattern maxResults acc rest) := by
  have hp : processStory pattern s = none := by
    simp [processStory, h1, h2, h3, h4, h5, h6]
  exact ⟨hp, fun maxResults acc rest => by simp [processStories, hp]⟩

theorem C9_title_match_can_be_skipped_witness :
    processStory patEywa sSkipped = none ∧
    processStories patEywa 10 [] [sSkipped] = [] :=
  ⟨(C9_title_match_can_be_skipped patEywa sSkipped
      { text := "EYWA launch", href := some "https://example.com/e" }
      { pointsMatch := some 5, commentsMatch := some 3,
        timeMatch := some "2 hours ago" } 3 "EYWA"
      rfl rfl (by decide) rfl (by decide) rfl).1,
   ((C9_title_match_can_be_skipped patEywa sSkipped
      { text := "EYWA launch", href := some "https://example.com/e" }
      { pointsMatch := some 5, commentsMatch := some 3,
        timeMatch := some "2 hours ago" } 3 "EYWA"
      rfl rfl (by decide) rfl (by decide) rfl).2 10 [] []).trans rfl⟩

/-- C10: every entry match with `comments = 0` has an absent `hn_url`,
because the discussion-link lookup is only performed when
`comments > 0` — the conditional expression at lines 103-104 writes
`None` otherwise, whatever the page contains. -/
theorem C10_zero_comments_no_thread_url (fetch : Nat → Option (List RawStory))
    (pattern : Pattern) (maxResults : Nat) (m : EntryMatch)
    (hm : m ∈ (search_hn_posts fetch pattern maxResults).matchList)
    (h0 : m.comments = 0) : m.hn_url = none := by
  have hchar := searchPages_matchList fetch pattern maxResults pageList [] 0
    (Nat.zero_le _)
  simp only [search_hn_posts] at hm
  rw [hchar, List.nil_append] at hm
  have hm' := List.take_subset _ _ hm
  obtain ⟨s, hs⟩ := mem_availableMatches hm'
  exact processStory_comments_zero hs h0

theorem C10_zero_comments_no_thread_url_witness : entryT1.hn_url = none :=
  C10_zero_comments_no_thread_url fetchOneStory patAll 10 entryT1
    (by decide) (by decide)

end HN
